import Mathlib

/-!
Verification development for `scripts/parse_pdf.py`: a resume-PDF fallback
parser.  The Python program is embedded shallowly: strings are `List Char`,
the two concrete regular expressions are realized by a small backtracking
matcher specialized to the character-class/literal pieces they use, and the
orchestrator `main` is a pure function of its environment (the text returned
by the native extractor and the outcome of the OCR extractor), returning an
explicit record of its observable effects (files written, stdout, stderr,
exit code).
-/

set_option maxRecDepth 8000

namespace ParsePdf

/-- Strings of the Python program, modelled as lists of characters. -/
abbrev Str := List Char

/-- Python whitespace for `str.strip` / `str.split` / the regex class
backslash-s, restricted to the ASCII whitespace characters (the model does
not cover exotic Unicode whitespace). -/
def pySpace (c : Char) : Bool :=
  c == ' ' || c == '\t' || c == '\n' || c == '\r' || c == '\x0b' || c == '\x0c'

/-- Python `str.lstrip()`. -/
def lstrip (s : Str) : Str := s.dropWhile pySpace

/-- Python `str.rstrip()`. -/
def rstrip (s : Str) : Str := (s.reverse.dropWhile pySpace).reverse

/-- Python `str.strip()`. -/
def pyStrip (s : Str) : Str := rstrip (lstrip s)

/-- Python `str.lower()` (ASCII model). -/
def toLowerStr (s : Str) : Str := s.map Char.toLower

/-- Python `str.split('\n')`: split on every newline, keeping empty pieces. -/
def splitLines : Str → List Str
  | [] => [[]]
  | c :: cs =>
    match splitLines cs with
    | [] => if c == '\n' then [[], []] else [[c]]
    | l :: ls => if c == '\n' then [] :: l :: ls else (c :: l) :: ls

/-- Python `'\n'.join(lines)`. -/
def joinNl : List Str → Str
  | [] => []
  | [s] => s
  | s :: rest => s ++ '\n' :: joinNl rest

/-- Helper for `str.split()` (no argument): split on whitespace runs,
dropping empty pieces; `acc` is the current word, reversed. -/
def splitWsAux : Str → Str → List Str
  | [], acc => if acc.isEmpty then [] else [acc.reverse]
  | c :: cs, acc =>
    if pySpace c then
      if acc.isEmpty then splitWsAux cs [] else acc.reverse :: splitWsAux cs []
    else splitWsAux cs (c :: acc)

/-- Python `len(line.split())`: the number of whitespace-delimited tokens. -/
def numTokens (s : Str) : Nat := (splitWsAux s []).length

/-- The six section keys of `section_buffers` (`'basics'` is the initial
current section; the other five can be returned by `is_header`). -/
inductive SKey
  | basics
  | summary
  | experience
  | education
  | skills
  | projects
deriving DecidableEq

/-- The pattern lists of the `SECTION_HEADERS` dict, per section.  All
patterns are regex-metacharacter-free literals in the source. -/
def patternsOf : SKey → List Str
  | .summary => ["summary".toList, "profile".toList, "objective".toList,
                 "about me".toList]
  | .experience => ["experience".toList, "employment".toList,
                    "work history".toList, "professional experience".toList]
  | .education => ["education".toList, "academic background".toList,
                   "qualifications".toList]
  | .skills => ["skills".toList, "technologies".toList,
                "core competencies".toList, "technical skills".toList]
  | .projects => ["projects".toList, "personal projects".toList,
                  "key projects".toList]
  | .basics => []

/-- The `SECTION_HEADERS` dict entries, in the dict's declared iteration order. -/
def SECTION_HEADERS : List (SKey × List Str) :=
  [(.summary, patternsOf .summary), (.experience, patternsOf .experience),
   (.education, patternsOf .education), (.skills, patternsOf .skills),
   (.projects, patternsOf .projects)]

/-- Python `re.match(rf'^\s*{pattern}\s*$', ll)` for a literal `pattern`: after
the greedy whitespace run at the start, the pattern must follow literally,
and everything after it must be whitespace.  (The patterns start with a
non-whitespace character, so the leading greedy run never backtracks.) -/
def reFullMatch (p ll : Str) : Bool :=
  List.isPrefixOf p (ll.dropWhile pySpace)
    && ((ll.dropWhile pySpace).drop p.length).all pySpace

/-- Python `re.match(rf'^\s*{pattern}[:]?\s*$', ll)`: as `reFullMatch` but an
optional single colon may follow the pattern. -/
def reFullMatchColon (p ll : Str) : Bool :=
  List.isPrefixOf p (ll.dropWhile pySpace) &&
    (((ll.dropWhile pySpace).drop p.length).all pySpace ||
      (((ll.dropWhile pySpace).drop p.length).head? == some ':'
        && ((ll.dropWhile pySpace).drop p.length).tail.all pySpace))

/-- Inner loop of `is_header` over one section's pattern list: the source
returns the section as soon as a pattern matches and the line has at most
4 whitespace-delimited tokens. -/
def anyPatMatch (ll : Str) (tok : Nat) : List Str → Bool
  | [] => false
  | p :: ps =>
    ((reFullMatch p ll || reFullMatchColon p ll) && decide (tok ≤ 4))
      || anyPatMatch ll tok ps

/-- Outer loop of `is_header` over `SECTION_HEADERS`, first match wins. -/
def findHeader (ll : Str) (tok : Nat) : List (SKey × List Str) → Option SKey
  | [] => none
  | (sec, pats) :: rest =>
    if anyPatMatch ll tok pats then some sec else findHeader ll tok rest

/-- The classifier `is_header(line)`: lowercase the stripped line, test it against every
section's anchored patterns, cap at 4 tokens (token count taken on the
original argument, as in the source). -/
def is_header (line : Str) : Option SKey :=
  findHeader (toLowerStr (pyStrip line)) (numTokens line) SECTION_HEADERS

/-- True when a string is non-empty and its last character is not
whitespace (then `rstrip` leaves it unchanged). -/
def lastNonSpace (q : Str) : Bool :=
  match q.reverse with
  | [] => false
  | c :: _ => !pySpace c

/-- Canonical form of `anyPatMatch` in terms of the normalized line `K`
(`rstrip` of the whitespace-stripped lowered line): a pattern matches the
anchored regexes exactly when `K` is the pattern or the pattern plus a
single trailing colon. -/
def anyPatMatchK (K : Str) (tok : Nat) : List Str → Bool
  | [] => false
  | p :: ps =>
    (decide (K = p ∨ K = p ++ [':']) && decide (tok ≤ 4)) || anyPatMatchK K tok ps

/-- Canonical form of `findHeader` in terms of the normalized line. -/
def findHeaderK (K : Str) (tok : Nat) : List (SKey × List Str) → Option SKey
  | [] => none
  | (sec, pats) :: rest =>
    if anyPatMatchK K tok pats then some sec else findHeaderK K tok rest

/-- The `section_buffers` dict as a record. -/
structure Buffers where
  basics : List Str
  summary : List Str
  experience : List Str
  education : List Str
  skills : List Str
  projects : List Str
deriving DecidableEq

def emptyBuffers : Buffers := ⟨[], [], [], [], [], []⟩

/-- Appending: `section_buffers[key].append(l)`. -/
def appendBuf (b : Buffers) : SKey → Str → Buffers
  | .basics, l => { b with basics := b.basics ++ [l] }
  | .summary, l => { b with summary := b.summary ++ [l] }
  | .experience, l => { b with experience := b.experience ++ [l] }
  | .education, l => { b with education := b.education ++ [l] }
  | .skills, l => { b with skills := b.skills ++ [l] }
  | .projects, l => { b with projects := b.projects ++ [l] }

/-- Pass 1 of `naive_structure_parser`: gather lines into bins.  Blank
lines (empty after stripping) are skipped; header lines switch the current
section and are themselves dropped; every other line is appended stripped.
The source guards with `if current_section in section_buffers`, which is
always true because every key `is_header` can return has a buffer. -/
def gather : List Str → SKey → Buffers → Buffers
  | [], _, bufs => bufs
  | line :: rest, cur, bufs =>
    let clean := pyStrip line
    if clean.isEmpty then gather rest cur bufs
    else
      match is_header clean with
      | some sec => gather rest sec bufs
      | none => gather rest cur (appendBuf bufs cur clean)

/-- Pieces of the two concrete regexes of the source: a literal character,
an optional character class, a greedy `+` over a class, and an exact-count
class repetition. -/
inductive RPiece
  | lit (c : Char)
  | opt (p : Char → Bool)
  | plus (p : Char → Bool)
  | exactly (n : Nat) (p : Char → Bool)

/-- Backtracking matcher for a sequence of pieces anchored at the start of
`s`; returns the matched characters (Python's greedy-with-backtracking
semantics: `+` tries the longest take first, `?` tries presence first). -/
def matchPieces : List RPiece → Str → Option Str
  | [], _ => some []
  | RPiece.lit c :: ps, s =>
    match s with
    | [] => none
    | x :: xs => if x == c then (matchPieces ps xs).map (x :: ·) else none
  | RPiece.opt p :: ps, s =>
    match s with
    | [] => matchPieces ps []
    | x :: xs =>
      if p x then
        match matchPieces ps xs with
        | some r => some (x :: r)
        | none => matchPieces ps (x :: xs)
      else matchPieces ps (x :: xs)
  | RPiece.plus p :: ps, s =>
    let maxk := (s.takeWhile p).length
    (List.range maxk).findSome? fun i =>
      (matchPieces ps (s.drop (maxk - i))).map (s.take (maxk - i) ++ ·)
  | RPiece.exactly n p :: ps, s =>
    if (s.take n).length == n && (s.take n).all p then
      (matchPieces ps (s.drop n)).map (s.take n ++ ·)
    else none

/-- Python `re.search`: try the pattern at each start position, leftmost first;
the returned value is `match.group(0)`. -/
def reSearch (pieces : List RPiece) : Str → Option Str
  | [] => matchPieces pieces []
  | c :: cs =>
    match matchPieces pieces (c :: cs) with
    | some m => some m
    | none => reSearch pieces cs

/-- Regex `\w` (ASCII model). -/
def isWordChar (c : Char) : Bool :=
  ('a' ≤ c && c ≤ 'z') || ('A' ≤ c && c ≤ 'Z') || ('0' ≤ c && c ≤ '9') || c == '_'

/-- Regex class `[\w\.-]`. -/
def isEmailChar (c : Char) : Bool := isWordChar c || c == '.' || c == '-'

/-- Regex class `[\s.-]`. -/
def isSepChar (c : Char) : Bool := pySpace c || c == '.' || c == '-'

/-- Regex `\d` (ASCII). -/
def isDigitChar (c : Char) : Bool := '0' ≤ c && c ≤ '9'

/-- The email regex `[\w\.-]+@[\w\.-]+\.\w+`. -/
def emailPieces : List RPiece :=
  [.plus isEmailChar, .lit '@', .plus isEmailChar, .lit '.', .plus isWordChar]

/-- The phone regex `\(?\d{3}\)?[\s.-]?\d{3}[\s.-]?\d{4}`. -/
def phonePieces : List RPiece :=
  [.opt (fun c => c == '('), .exactly 3 isDigitChar, .opt (fun c => c == ')'),
   .opt isSepChar, .exactly 3 isDigitChar, .opt isSepChar, .exactly 4 isDigitChar]

/-- The `resume_data['basics']` record. -/
structure Basics where
  full_name : Str
  email : Str
  phone : Str
  linkedin : Str
deriving DecidableEq

/-- One element of the `experience` / `education` lists. -/
structure DumpItem where
  text_dump : Str
deriving DecidableEq

/-- The `resume_data['skills']` record. -/
structure Skills where
  technical : List Str
  tools : List Str
  soft : List Str
deriving DecidableEq

/-- The `resume_data` record built by `naive_structure_parser` (the
`projects` buffer is gathered but never emitted, as in the source). -/
structure ResumeData where
  basics : Basics
  summary : Str
  experience : List DumpItem
  education : List DumpItem
  skills : Skills
  raw_text : Str
deriving DecidableEq

/-- The section-buffer map produced by pass 1, starting in `basics`. -/
def parserBuffers (raw : Str) : Buffers :=
  gather (splitLines raw) SKey.basics emptyBuffers

/-- The builder `naive_structure_parser(raw_text)` (name shortened here;
the source function is named `naive_structure_parser`): gather lines, then derive email / phone /
full name from the basics buffer, join the summary buffer, wrap the
experience and education buffers as single text dumps when non-empty, and
copy the skills buffer into `skills.technical`.  `raw_text` is always the
input, verbatim. -/
def naive_structure_parse (raw : Str) : ResumeData :=
  let bufs := parserBuffers raw
  let basics_text := joinNl bufs.basics
  { basics :=
      { full_name := bufs.basics.headD []
        email := (reSearch emailPieces basics_text).getD []
        phone := (reSearch phonePieces basics_text).getD []
        linkedin := [] }
    summary := joinNl bufs.summary
    experience :=
      if bufs.experience.isEmpty then [] else [⟨joinNl bufs.experience⟩]
    education :=
      if bufs.education.isEmpty then [] else [⟨joinNl bufs.education⟩]
    skills := { technical := bufs.skills, tools := [], soft := [] }
    raw_text := raw }

/-- JSON values, for the serialized artifact. -/
inductive Json
  | str (s : Str)
  | arr (xs : List Json)
  | obj (fields : List (String × Json))

def Basics.toJson (b : Basics) : Json :=
  .obj [("full_name", .str b.full_name), ("email", .str b.email),
        ("phone", .str b.phone), ("linkedin", .str b.linkedin)]

def Skills.toJson (s : Skills) : Json :=
  .obj [("technical", .arr (s.technical.map Json.str)),
        ("tools", .arr (s.tools.map Json.str)),
        ("soft", .arr (s.soft.map Json.str))]

def DumpItem.toJson (e : DumpItem) : Json :=
  .obj [("text_dump", .str e.text_dump)]

/-- Serialization of `resume_data`, keys in the dict's insertion order. -/
def ResumeData.toJson (r : ResumeData) : Json :=
  .obj [("basics", r.basics.toJson), ("summary", .str r.summary),
        ("experience", .arr (r.experience.map DumpItem.toJson)),
        ("education", .arr (r.education.map DumpItem.toJson)),
        ("skills", r.skills.toJson), ("raw_text", .str r.raw_text)]

/-- Top-level keys of a JSON object. -/
def topKeys : Json → List String
  | .obj fs => fs.map Prod.fst
  | _ => []

/-- Key lookup in a JSON object (first binding wins). -/
def jsonLookup (j : Json) (k : String) : Option Json :=
  match j with
  | .obj fs => fs.lookup k
  | _ => none

/-- Stamping `structured_json['_meta_method'] = m`: appends the key to the dict. -/
def addMeta (j : Json) (m : String) : Json :=
  match j with
  | .obj fs => .obj (fs ++ [("_meta_method", Json.str m.toList)])
  | other => other

/-- Environment of one `main` invocation: what `extract_text_pdfplumber`
returned, and what `extract_text_paddleocr` would do (`ok` text, or
`error` with the exception's message). -/
structure MainEnv where
  pdfText : Str
  ocrResult : Except Str Str

/-- Observable outcome of one `main` invocation. -/
structure MainOutcome where
  usedOcr : Bool
  rawText : Str
  ocrTxt : Option Str
  parsedJson : Json
  stdoutLines : List String
  stderrLines : List Str
  exitCode : Nat

def taskDir (reqId : String) : String := "/tmp/resume_tasks/" ++ reqId

def outPath (reqId : String) : String := taskDir reqId ++ "/parsed_fallback.json"

def FAILED_EXTRACTION : Str := "FAILED_EXTRACTION".toList

/-- The orchestrator `main()` after argument parsing: try native text; if its stripped
length is below 50, fall back to OCR (writing `ocr.txt` on success,
substituting the sentinel and logging on failure); structure the text,
stamp `_meta_method`, write the JSON, print the output path, exit 0. -/
def main_run (reqId : String) (env : MainEnv) : MainOutcome :=
  let raw0 := env.pdfText
  if (pyStrip raw0).length < 50 then
    match env.ocrResult with
    | .ok t =>
      { usedOcr := true, rawText := t, ocrTxt := some t
        parsedJson := addMeta (naive_structure_parse t).toJson "paddleocr"
        stdoutLines := [outPath reqId], stderrLines := [], exitCode := 0 }
    | .error e =>
      { usedOcr := true, rawText := FAILED_EXTRACTION, ocrTxt := none
        parsedJson :=
          addMeta (naive_structure_parse FAILED_EXTRACTION).toJson "paddleocr"
        stdoutLines := [outPath reqId]
        stderrLines := ["OCR Failed: ".toList ++ e], exitCode := 0 }
  else
    { usedOcr := false, rawText := raw0, ocrTxt := none
      parsedJson := addMeta (naive_structure_parse raw0).toJson "pdfplumber"
      stdoutLines := [outPath reqId], stderrLines := [], exitCode := 0 }

/-! ## Helper lemmas: normalizing the anchored regex matches -/

theorem dropWhile_all_append (u v : Str) (h : u.all pySpace = true) :
    (u ++ v).dropWhile pySpace = v.dropWhile pySpace := by
  induction u with
  | nil => rfl
  | cons c cs ih =>
    simp only [List.all_cons, Bool.and_eq_true] at h
    simp [List.dropWhile_cons, h.1, ih h.2]

theorem rstrip_append_spaces (a t : Str) (ht : t.all pySpace = true) :
    rstrip (a ++ t) = rstrip a := by
  have ht' : t.reverse.all pySpace = true := by
    simp only [List.all_eq_true, List.mem_reverse]
    exact (List.all_eq_true.mp ht)
  unfold rstrip
  rw [List.reverse_append a t, dropWhile_all_append _ _ ht']

theorem rstrip_lastNonSpace (q : Str) (h : lastNonSpace q = true) :
    rstrip q = q := by
  unfold lastNonSpace at h
  cases hq : q.reverse with
  | nil => rw [hq] at h; simp at h
  | cons c rest =>
    rw [hq] at h
    simp only [Bool.not_eq_true'] at h
    unfold rstrip
    rw [hq, List.dropWhile_cons, if_neg (by simp [h]), ← hq, List.reverse_reverse]

theorem exists_trailing (s : Str) :
    ∃ t, s = rstrip s ++ t ∧ t.all pySpace = true := by
  refine ⟨(s.reverse.takeWhile pySpace).reverse, ?_, ?_⟩
  · unfold rstrip
    rw [← List.reverse_append, List.takeWhile_append_dropWhile pySpace s.reverse,
      List.reverse_reverse]
  · simp only [List.all_eq_true, List.mem_reverse]
    exact fun x hx => List.mem_takeWhile_imp hx

theorem lastNonSpace_append_colon (q : Str) : lastNonSpace (q ++ [':']) = true := by
  unfold lastNonSpace
  rw [List.reverse_append q [':']]
  rfl

theorem patMatch_forward (ll q : Str) (hq : lastNonSpace q = true)
    (h : (reFullMatch q ll || reFullMatchColon q ll) = true) :
    rstrip (ll.dropWhile pySpace) = q ∨ rstrip (ll.dropWhile pySpace) = q ++ [':'] := by
  rw [Bool.or_eq_true] at h
  rcases h with h1 | h1
  · unfold reFullMatch at h1
    rw [Bool.and_eq_true] at h1
    obtain ⟨u, hu⟩ := List.isPrefixOf_iff_prefix.mp h1.1
    have hdrop : (ll.dropWhile pySpace).drop q.length = u := by
      rw [← hu]; exact List.drop_left q u
    have hall : u.all pySpace = true := by rw [← hdrop]; exact h1.2
    left
    rw [← hu, rstrip_append_spaces q u hall, rstrip_lastNonSpace q hq]
  · unfold reFullMatchColon at h1
    rw [Bool.and_eq_true] at h1
    obtain ⟨u, hu⟩ := List.isPrefixOf_iff_prefix.mp h1.1
    have hdrop : (ll.dropWhile pySpace).drop q.length = u := by
      rw [← hu]; exact List.drop_left q u
    have h2 := h1.2
    rw [hdrop] at h2
    rw [Bool.or_eq_true] at h2
    rcases h2 with h3 | h3
    · left
      rw [← hu, rstrip_append_spaces q u h3, rstrip_lastNonSpace q hq]
    · rw [Bool.and_eq_true] at h3
      have hh : u.head? = some ':' := by
        have := h3.1
        simpa using this
      cases u with
      | nil => simp at hh
      | cons c r2 =>
        have hc : c = ':' := by simpa using hh
        subst hc
        have h4 : r2.all pySpace = true := by simpa using h3.2
        right
        rw [← hu, List.append_cons q ':' r2,
          rstrip_append_spaces (q ++ [':']) r2 h4,
          rstrip_lastNonSpace (q ++ [':']) (lastNonSpace_append_colon q)]

theorem patMatch_backward (ll q : Str)
    (h : rstrip (ll.dropWhile pySpace) = q ∨ rstrip (ll.dropWhile pySpace) = q ++ [':']) :
    (reFullMatch q ll || reFullMatchColon q ll) = true := by
  obtain ⟨t, hst, hta⟩ := exists_trailing (ll.dropWhile pySpace)
  rcases h with hK | hK
  · rw [hK] at hst
    rw [Bool.or_eq_true]
    left
    unfold reFullMatch
    rw [Bool.and_eq_true]
    constructor
    · exact List.isPrefixOf_iff_prefix.mpr ⟨t, hst.symm⟩
    · rw [hst, List.drop_left q t]; exact hta
  · rw [hK] at hst
    rw [Bool.or_eq_true]
    right
    unfold reFullMatchColon
    rw [Bool.and_eq_true]
    have hst' : ll.dropWhile pySpace = q ++ (':' :: t) := by
      rw [hst, ← List.append_cons q ':' t]
    constructor
    · exact List.isPrefixOf_iff_prefix.mpr ⟨':' :: t, hst'.symm⟩
    · rw [Bool.or_eq_true]
      right
      rw [hst', List.drop_left q (':' :: t)]
      simp [hta]

theorem patMatch_eq_decide (ll q : Str) (hq : lastNonSpace q = true) :
    (reFullMatch q ll || reFullMatchColon q ll)
      = decide (rstrip (ll.dropWhile pySpace) = q
          ∨ rstrip (ll.dropWhile pySpace) = q ++ [':']) := by
  cases h : (reFullMatch q ll || reFullMatchColon q ll) with
  | true => exact (decide_eq_true (patMatch_forward ll q hq h)).symm
  | false =>
    refine (decide_eq_false ?_).symm
    intro hp
    rw [patMatch_backward ll q hp] at h
    simp at h

theorem anyPatMatch_eq_K (ll : Str) (tok : Nat) (pats : List Str)
    (h : pats.all lastNonSpace = true) :
    anyPatMatch ll tok pats = anyPatMatchK (rstrip (ll.dropWhile pySpace)) tok pats := by
  induction pats with
  | nil => rfl
  | cons p ps ih =>
    simp only [List.all_cons, Bool.and_eq_true] at h
    simp only [anyPatMatch, anyPatMatchK, ih h.2, patMatch_eq_decide ll p h.1]

theorem findHeader_eq_K (ll : Str) (tok : Nat) (entries : List (SKey × List Str))
    (h : entries.all (fun e => e.2.all lastNonSpace) = true) :
    findHeader ll tok entries
      = findHeaderK (rstrip (ll.dropWhile pySpace)) tok entries := by
  induction entries with
  | nil => rfl
  | cons e rest ih =>
    obtain ⟨sec, pats⟩ := e
    simp only [List.all_cons, Bool.and_eq_true] at h
    simp only [findHeader, findHeaderK, anyPatMatch_eq_K ll tok pats h.1, ih h.2]

theorem is_header_eq_K (line : Str) :
    is_header line
      = findHeaderK (rstrip ((toLowerStr (pyStrip line)).dropWhile pySpace))
          (numTokens line) SECTION_HEADERS :=
  findHeader_eq_K _ _ _ (by decide)

theorem anyPatMatchK_true_iff (K : Str) (tok : Nat) (pats : List Str) :
    anyPatMatchK K tok pats = true
      ↔ (∃ p ∈ pats, K = p ∨ K = p ++ [':']) ∧ tok ≤ 4 := by
  induction pats with
  | nil => simp [anyPatMatchK]
  | cons p ps ih =>
    simp only [anyPatMatchK, Bool.or_eq_true, Bool.and_eq_true, decide_eq_true_eq,
      ih, List.mem_cons]
    constructor
    · rintro (⟨hm, htok⟩ | ⟨⟨q, hq, hm⟩, htok⟩)
      · exact ⟨⟨p, Or.inl rfl, hm⟩, htok⟩
      · exact ⟨⟨q, Or.inr hq, hm⟩, htok⟩
    · rintro ⟨⟨q, hq | hq, hm⟩, htok⟩
      · subst hq; exact Or.inl ⟨hm, htok⟩
      · exact Or.inr ⟨⟨q, hq, hm⟩, htok⟩

theorem anyPatMatchK_false (K : Str) (tok : Nat) (pats : List Str)
    (h : ∀ p ∈ pats, ¬(K = p ∨ K = p ++ [':'])) :
    anyPatMatchK K tok pats = false := by
  induction pats with
  | nil => rfl
  | cons p ps ih =>
    have h1 : decide (K = p ∨ K = p ++ [':']) = false :=
      decide_eq_false (h p (List.mem_cons_self p ps))
    have h2 := ih fun q hq => h q (List.mem_cons_of_mem p hq)
    simp [anyPatMatchK, h1, h2]

theorem anyPatMatchK_true (K : Str) (tok : Nat) (pats : List Str)
    (htok : tok ≤ 4) (h : ∃ p ∈ pats, K = p ∨ K = p ++ [':']) :
    anyPatMatchK K tok pats = true :=
  (anyPatMatchK_true_iff K tok pats).mpr ⟨h, htok⟩

theorem findHeaderK_skip (K : Str) (tok : Nat) (sec : SKey) (pats : List Str)
    (rest : List (SKey × List Str)) (h : anyPatMatchK K tok pats = false) :
    findHeaderK K tok ((sec, pats) :: rest) = findHeaderK K tok rest := by
  simp [findHeaderK, h]

theorem findHeaderK_hit (K : Str) (tok : Nat) (sec : SKey) (pats : List Str)
    (rest : List (SKey × List Str)) (h : anyPatMatchK K tok pats = true) :
    findHeaderK K tok ((sec, pats) :: rest) = some sec := by
  simp [findHeaderK, h]

theorem findHeaderK_iff (K : Str) (tok : Nat) (sec : SKey) :
    findHeaderK K tok SECTION_HEADERS = some sec
      ↔ (∃ p ∈ patternsOf sec, K = p ∨ K = p ++ [':']) ∧ tok ≤ 4 := by
  constructor
  · intro h
    simp only [SECTION_HEADERS, findHeaderK] at h
    split_ifs at h with h1 h2 h3 h4 h5
    all_goals first
      | (injection h with h0; subst h0;
         exact (anyPatMatchK_true_iff _ _ _).mp (by assumption))
      | simp at h
  · rintro ⟨⟨p, hp, hKp⟩, htok⟩
    cases sec <;>
      simp only [patternsOf, List.mem_cons, List.not_mem_nil, or_false] at hp
    all_goals first
      | (rcases hp with rfl | rfl | rfl | rfl)
      | (rcases hp with rfl | rfl | rfl)
    all_goals rcases hKp with rfl | rfl
    all_goals simp only [SECTION_HEADERS]
    all_goals repeat rw [findHeaderK_skip _ _ _ _ _ (anyPatMatchK_false _ _ _ (by decide))]
    all_goals rw [findHeaderK_hit _ _ _ _ _ (anyPatMatchK_true _ _ _ htok (by decide))]

/-! ## Helper lemmas: one step of the line-gathering pass -/

theorem gather_step_blank (l : Str) (rest : List Str) (cur : SKey) (bufs : Buffers)
    (h : (pyStrip l).isEmpty = true) :
    gather (l :: rest) cur bufs = gather rest cur bufs := by
  simp [gather, h]

theorem gather_step_header (l : Str) (rest : List Str) (cur sec : SKey)
    (bufs : Buffers) (hne : (pyStrip l).isEmpty = false)
    (hh : is_header (pyStrip l) = some sec) :
    gather (l :: rest) cur bufs = gather rest sec bufs := by
  simp [gather, hne, hh]

theorem gather_step_content (l : Str) (rest : List Str) (cur : SKey)
    (bufs : Buffers) (hne : (pyStrip l).isEmpty = false)
    (hh : is_header (pyStrip l) = none) :
    gather (l :: rest) cur bufs = gather rest cur (appendBuf bufs cur (pyStrip l)) := by
  simp [gather, hne, hh]

/-! ## Claim theorems -/

/-- C3: for every line, the section classifier `is_header` returns section
`sec` if and only if the lowercased stripped line matches one of that
section's anchored whole-line patterns (optionally with a single trailing
colon) and the line has at most 4 whitespace-delimited tokens; any line
failing all patterns or exceeding the token cap yields no match. -/
theorem C3_is_header_iff (line : Str) (sec : SKey) :
    is_header line = some sec
      ↔ (∃ p ∈ patternsOf sec,
            (reFullMatch p (toLowerStr (pyStrip line))
              || reFullMatchColon p (toLowerStr (pyStrip line))) = true)
          ∧ numTokens line ≤ 4 := by
  rw [is_header_eq_K, findHeaderK_iff]
  have hsec : ∀ p ∈ patternsOf sec, lastNonSpace p = true := by
    cases sec <;> decide
  constructor
  · rintro ⟨⟨p, hp, hKp⟩, htok⟩
    refine ⟨⟨p, hp, ?_⟩, htok⟩
    rw [patMatch_eq_decide _ p (hsec p hp)]
    exact decide_eq_true hKp
  · rintro ⟨⟨p, hp, hm⟩, htok⟩
    refine ⟨⟨p, hp, ?_⟩, htok⟩
    have h2 := patMatch_eq_decide (toLowerStr (pyStrip line)) p (hsec p hp)
    rw [h2] at hm
    exact of_decide_eq_true hm

/-- C3 witness: the characterization applied at a concrete header line. -/
theorem C3_is_header_iff_witness :
    is_header "Skills".toList = some SKey.skills :=
  (C3_is_header_iff "Skills".toList SKey.skills).mpr
    ⟨⟨"skills".toList, by decide, by decide⟩, by decide⟩

/-- C8 counterexample: the line `"My Work Experience Summary"` has exactly
4 whitespace-delimited tokens, refuting the claim that it has 5 or more
and that the 4-token cap is what rejects it. -/
theorem C8_counterexample :
    numTokens "My Work Experience Summary".toList = 4
      ∧ ¬ 5 ≤ numTokens "My Work Experience Summary".toList := by decide

/-- C8 (amended): the line `"My Work Experience Summary"` (exactly 4
tokens, so the token cap does not reject it) is never classified as a
section header because no anchored whole-line pattern matches it, and it
is buffered as content of the current section. -/
theorem C8_not_header (cur : SKey) (bufs : Buffers) (rest : List Str) :
    is_header "My Work Experience Summary".toList = none
      ∧ numTokens "My Work Experience Summary".toList ≤ 4
      ∧ (SECTION_HEADERS.all fun e => e.2.all fun p =>
          !(reFullMatch p (toLowerStr (pyStrip "My Work Experience Summary".toList))
            || reFullMatchColon p
                (toLowerStr (pyStrip "My Work Experience Summary".toList)))) = true
      ∧ gather ("My Work Experience Summary".toList :: rest) cur bufs
          = gather rest cur
              (appendBuf bufs cur "My Work Experience Summary".toList) := by
  refine ⟨by decide, by decide, by decide, ?_⟩
  have h := gather_step_content "My Work Experience Summary".toList rest cur bufs
    (by decide) (by decide)
  rw [h]
  rfl

/-- C4 counterexample: a non-blank line with surrounding whitespace is not
appended verbatim: the builder appends the stripped line instead. -/
theorem C4_counterexample :
    splitLines "  John Smith  ".toList = ["  John Smith  ".toList]
      ∧ (gather ["  John Smith  ".toList] SKey.basics emptyBuffers).basics
          = ["John Smith".toList]
      ∧ (gather ["  John Smith  ".toList] SKey.basics emptyBuffers).basics
          ≠ ["  John Smith  ".toList] := by decide

/-- C4 (amended): the line pass starts in the basics section; blank lines
are dropped entirely (no buffer change, no section switch); a header line
switches the current section and is itself discarded; every other
non-blank line is appended to the current section's buffer after stripping
leading and trailing whitespace. -/
theorem C4_line_pass (raw l : Str) (rest : List Str) (cur : SKey) (bufs : Buffers) :
    parserBuffers raw = gather (splitLines raw) SKey.basics emptyBuffers
      ∧ (pyStrip l = [] → gather (l :: rest) cur bufs = gather rest cur bufs)
      ∧ (∀ sec, is_header (pyStrip l) = some sec →
          gather (l :: rest) cur bufs = gather rest sec bufs)
      ∧ (pyStrip l ≠ [] → is_header (pyStrip l) = none →
          gather (l :: rest) cur bufs
            = gather rest cur (appendBuf bufs cur (pyStrip l))) := by
  refine ⟨rfl, ?_, ?_, ?_⟩
  · intro h
    exact gather_step_blank l rest cur bufs (by simp [h])
  · intro sec hh
    by_cases he : (pyStrip l).isEmpty = true
    · exfalso
      have : pyStrip l = [] := by simpa using he
      rw [this] at hh
      have : is_header ([] : Str) = none := by decide
      simp_all
    · exact gather_step_header l rest cur sec bufs (by simpa using he) hh
  · intro hne hh
    refine gather_step_content l rest cur bufs ?_ hh
    simpa using hne

/-- C4 witness: one concrete instance of each branch of the line pass. -/
theorem C4_line_pass_witness :
    gather ["   ".toList] SKey.basics emptyBuffers
        = gather [] SKey.basics emptyBuffers
      ∧ gather ["Skills".toList] SKey.basics emptyBuffers
          = gather [] SKey.skills emptyBuffers
      ∧ gather ["hello world".toList] SKey.basics emptyBuffers
          = gather [] SKey.basics
              (appendBuf emptyBuffers SKey.basics (pyStrip "hello world".toList)) :=
  ⟨(C4_line_pass [] "   ".toList [] SKey.basics emptyBuffers).2.1 (by decide),
   (C4_line_pass [] "Skills".toList [] SKey.basics emptyBuffers).2.2.1
     SKey.skills (by decide),
   (C4_line_pass [] "hello world".toList [] SKey.basics emptyBuffers).2.2.2
     (by decide) (by decide)⟩

/-- The search `reSearch` implements leftmost search: a returned match is the anchored
match at the first start position where the pattern matches at all. -/
theorem reSearch_leftmost (pieces : List RPiece) (s m : Str)
    (h : reSearch pieces s = some m) :
    ∃ i, i ≤ s.length ∧ matchPieces pieces (s.drop i) = some m
      ∧ ∀ j, j < i → matchPieces pieces (s.drop j) = none := by
  induction s with
  | nil =>
    refine ⟨0, Nat.le_refl 0, ?_, fun j hj => absurd hj (Nat.not_lt_zero j)⟩
    simpa [reSearch] using h
  | cons c cs ih =>
    simp only [reSearch] at h
    cases hm : matchPieces pieces (c :: cs) with
    | some m2 =>
      rw [hm] at h
      refine ⟨0, Nat.zero_le _, ?_, fun j hj => absurd hj (Nat.not_lt_zero j)⟩
      simpa using hm.trans h
    | none =>
      rw [hm] at h
      obtain ⟨i, hle, hmi, hlt⟩ := ih h
      refine ⟨i + 1, Nat.succ_le_succ hle, ?_, ?_⟩
      · simpa using hmi
      · intro j hj
        cases j with
        | zero => simpa using hm
        | succ j0 => simpa using hlt j0 (Nat.lt_of_succ_lt_succ hj)

/-- C1: the structure builder is total and, for every input, its output
carries all top-level keys of the ResumeRecord shape (with the nested
basics and skills keys), and its `raw_text` field is the input verbatim. -/
theorem C1_record_shape (raw : Str) :
    topKeys (naive_structure_parse raw).toJson
        = ["basics", "summary", "experience", "education", "skills", "raw_text"]
      ∧ jsonLookup (naive_structure_parse raw).toJson "basics"
          = some (naive_structure_parse raw).basics.toJson
      ∧ topKeys (naive_structure_parse raw).basics.toJson
          = ["full_name", "email", "phone", "linkedin"]
      ∧ jsonLookup (naive_structure_parse raw).toJson "skills"
          = some (naive_structure_parse raw).skills.toJson
      ∧ topKeys (naive_structure_parse raw).skills.toJson
          = ["technical", "tools", "soft"]
      ∧ jsonLookup (naive_structure_parse raw).toJson "raw_text"
          = some (Json.str raw)
      ∧ (naive_structure_parse raw).raw_text = raw :=
  ⟨rfl, rfl, rfl, rfl, rfl, rfl, rfl⟩

/-- C5: email is the first email-shaped substring of the newline-joined
basics buffer (leftmost match, per `reSearch_leftmost` restated in the
second conjunct), phone the first match of the North-American phone regex,
full name the first line of the basics buffer with no validation; on the
Jane Doe block the three fields come out as the claim states. -/
theorem C5_basics_fields :
    (∀ raw : Str,
        (naive_structure_parse raw).basics.email
            = (reSearch emailPieces (joinNl (parserBuffers raw).basics)).getD []
          ∧ (naive_structure_parse raw).basics.phone
            = (reSearch phonePieces (joinNl (parserBuffers raw).basics)).getD []
          ∧ (naive_structure_parse raw).basics.full_name
            = (parserBuffers raw).basics.headD [])
      ∧ (∀ pieces s m, reSearch pieces s = some m →
          ∃ i, i ≤ List.length s ∧ matchPieces pieces (s.drop i) = some m
            ∧ ∀ j, j < i → matchPieces pieces (s.drop j) = none)
      ∧ (naive_structure_parse
            "Jane Doe\njane.doe@example.com\n(555) 123-4567".toList).basics.full_name
          = "Jane Doe".toList
      ∧ (naive_structure_parse
            "Jane Doe\njane.doe@example.com\n(555) 123-4567".toList).basics.email
          = "jane.doe@example.com".toList
      ∧ (naive_structure_parse
            "Jane Doe\njane.doe@example.com\n(555) 123-4567".toList).basics.phone
          = "(555) 123-4567".toList :=
  ⟨fun _ => ⟨rfl, rfl, rfl⟩, reSearch_leftmost, by decide, by decide, by decide⟩

/-- C5 witness: the leftmost-match property instantiated on the Jane Doe
block for the email regex, hypothesis discharged by evaluation. -/
theorem C5_basics_fields_witness :
    ∃ i, i ≤ List.length ("Jane Doe\njane.doe@example.com\n(555) 123-4567".toList)
      ∧ matchPieces emailPieces
          (("Jane Doe\njane.doe@example.com\n(555) 123-4567".toList).drop i)
          = some "jane.doe@example.com".toList
      ∧ ∀ j, j < i →
          matchPieces emailPieces
            (("Jane Doe\njane.doe@example.com\n(555) 123-4567".toList).drop j)
            = none :=
  C5_basics_fields.2.1 emailPieces
    "Jane Doe\njane.doe@example.com\n(555) 123-4567".toList
    "jane.doe@example.com".toList (by decide)

/-- C6: the experience and education fields wrap a non-empty buffer as a
single-element list holding the newline-joined dump, and are empty lists
for an empty buffer; the concrete Experience/Education example produces
exactly the two dumps the claim states. -/
theorem C6_dump_wrapping (raw : Str) :
    ((parserBuffers raw).experience.isEmpty = true →
        (naive_structure_parse raw).experience = [])
      ∧ ((parserBuffers raw).experience.isEmpty = false →
          (naive_structure_parse raw).experience
            = [⟨joinNl (parserBuffers raw).experience⟩])
      ∧ ((parserBuffers raw).education.isEmpty = true →
          (naive_structure_parse raw).education = [])
      ∧ ((parserBuffers raw).education.isEmpty = false →
          (naive_structure_parse raw).education
            = [⟨joinNl (parserBuffers raw).education⟩])
      ∧ (naive_structure_parse
            "Experience\nACME Corp Engineer\nBuilt things\nLed team\nEducation\nBSc Computer Science\nState University".toList).experience
          = [⟨"ACME Corp Engineer\nBuilt things\nLed team".toList⟩]
      ∧ (naive_structure_parse
            "Experience\nACME Corp Engineer\nBuilt things\nLed team\nEducation\nBSc Computer Science\nState University".toList).education
          = [⟨"BSc Computer Science\nState University".toList⟩] := by
  refine ⟨?_, ?_, ?_, ?_, by decide, by decide⟩
  all_goals intro h
  all_goals simp only [naive_structure_parse, h]
  all_goals simp

/-- C6 witness: both branches of the wrapping rule at concrete inputs. -/
theorem C6_dump_wrapping_witness :
    (naive_structure_parse ([] : Str)).experience = []
      ∧ (naive_structure_parse "Experience\nBuilt a compiler".toList).experience
          = [⟨joinNl (parserBuffers "Experience\nBuilt a compiler".toList).experience⟩] :=
  ⟨(C6_dump_wrapping []).1 (by decide),
   (C6_dump_wrapping "Experience\nBuilt a compiler".toList).2.1 (by decide)⟩

/-! ## Helper lemmas: unfolding the three orchestrator paths -/

theorem main_run_native (reqId : String) (env : MainEnv)
    (h : ¬ (pyStrip env.pdfText).length < 50) :
    main_run reqId env =
      { usedOcr := false, rawText := env.pdfText, ocrTxt := none
        parsedJson := addMeta (naive_structure_parse env.pdfText).toJson "pdfplumber"
        stdoutLines := [outPath reqId], stderrLines := [], exitCode := 0 } := by
  unfold main_run
  rw [if_neg h]

theorem main_run_ocr_ok (reqId : String) (env : MainEnv) (t : Str)
    (h : (pyStrip env.pdfText).length < 50) (ho : env.ocrResult = .ok t) :
    main_run reqId env =
      { usedOcr := true, rawText := t, ocrTxt := some t
        parsedJson := addMeta (naive_structure_parse t).toJson "paddleocr"
        stdoutLines := [outPath reqId], stderrLines := [], exitCode := 0 } := by
  unfold main_run
  rw [if_pos h, ho]

theorem main_run_ocr_err (reqId : String) (env : MainEnv) (e : Str)
    (h : (pyStrip env.pdfText).length < 50) (ho : env.ocrResult = .error e) :
    main_run reqId env =
      { usedOcr := true, rawText := FAILED_EXTRACTION, ocrTxt := none
        parsedJson :=
          addMeta (naive_structure_parse FAILED_EXTRACTION).toJson "paddleocr"
        stdoutLines := [outPath reqId]
        stderrLines := ["OCR Failed: ".toList ++ e], exitCode := 0 } := by
  unfold main_run
  rw [if_pos h, ho]

theorem main_run_stdout_exit (reqId : String) (env : MainEnv) :
    (main_run reqId env).stdoutLines = [outPath reqId]
      ∧ (main_run reqId env).exitCode = 0 := by
  by_cases h : (pyStrip env.pdfText).length < 50
  · cases ho : env.ocrResult with
    | ok t => rw [main_run_ocr_ok reqId env t h ho]; exact ⟨rfl, rfl⟩
    | error e => rw [main_run_ocr_err reqId env e h ho]; exact ⟨rfl, rfl⟩
  · rw [main_run_native reqId env h]; exact ⟨rfl, rfl⟩

/-- C2: with at least 50 trimmed characters of native text, the meta method
is the native value and no OCR transcript is written; below the threshold
the meta method is the OCR value and, on OCR success, the transcript equals
the raw text used. -/
theorem C2_extraction_routing (reqId : String) (env : MainEnv) :
    (50 ≤ (pyStrip env.pdfText).length →
        jsonLookup (main_run reqId env).parsedJson "_meta_method"
            = some (Json.str "pdfplumber".toList)
          ∧ (main_run reqId env).ocrTxt = none
          ∧ (main_run reqId env).usedOcr = false)
      ∧ ((pyStrip env.pdfText).length < 50 →
          jsonLookup (main_run reqId env).parsedJson "_meta_method"
              = some (Json.str "paddleocr".toList)
            ∧ (main_run reqId env).usedOcr = true
            ∧ ∀ t, env.ocrResult = .ok t →
                (main_run reqId env).ocrTxt = some t
                  ∧ (main_run reqId env).rawText = t) := by
  constructor
  · intro h
    rw [main_run_native reqId env (Nat.not_lt.mpr h)]
    exact ⟨rfl, rfl, rfl⟩
  · intro h
    cases ho : env.ocrResult with
    | ok t0 =>
      rw [main_run_ocr_ok reqId env t0 h ho]
      refine ⟨rfl, rfl, ?_⟩
      intro t ht
      injection ht with ht0
      subst ht0
      exact ⟨rfl, rfl⟩
    | error e =>
      rw [main_run_ocr_err reqId env e h ho]
      refine ⟨rfl, rfl, ?_⟩
      intro t ht
      exact absurd ht (by simp)

/-- C2 witness: both threshold branches at concrete environments. -/
theorem C2_extraction_routing_witness :
    ((main_run "r"
        ⟨"this native text layer is long enough to pass the threshold".toList,
         .error []⟩).ocrTxt = none)
      ∧ (main_run "r" ⟨"shrt".toList, .ok "ocr text".toList⟩).ocrTxt
          = some "ocr text".toList :=
  ⟨((C2_extraction_routing "r"
      ⟨"this native text layer is long enough to pass the threshold".toList,
       .error []⟩).1 (by decide)).2.1,
   (((C2_extraction_routing "r" ⟨"shrt".toList, .ok "ocr text".toList⟩).2
      (by decide)).2.2 "ocr text".toList rfl).1⟩

/-- C7: when the OCR fallback is taken and the OCR extractor raises, the
orchestrator logs to the diagnostic stream, substitutes the sentinel as raw
text, still produces the JSON artifact, prints the output path, and exits
with code 0. -/
theorem C7_ocr_failure_handling (reqId : String) (env : MainEnv) (e : Str)
    (hlen : (pyStrip env.pdfText).length < 50)
    (herr : env.ocrResult = .error e) :
    (main_run reqId env).rawText = FAILED_EXTRACTION
      ∧ (main_run reqId env).stderrLines = ["OCR Failed: ".toList ++ e]
      ∧ (main_run reqId env).parsedJson
          = addMeta (naive_structure_parse FAILED_EXTRACTION).toJson "paddleocr"
      ∧ (main_run reqId env).stdoutLines = [outPath reqId]
      ∧ (main_run reqId env).exitCode = 0 := by
  rw [main_run_ocr_err reqId env e hlen herr]
  exact ⟨rfl, rfl, rfl, rfl, rfl⟩

/-- C7 witness: a concrete short-text environment with a failing OCR call. -/
theorem C7_ocr_failure_handling_witness :
    (main_run "req1" ⟨[], .error "boom".toList⟩).rawText = FAILED_EXTRACTION
      ∧ (main_run "req1" ⟨[], .error "boom".toList⟩).stderrLines
          = ["OCR Failed: ".toList ++ "boom".toList]
      ∧ (main_run "req1" ⟨[], .error "boom".toList⟩).exitCode = 0 :=
  have h := C7_ocr_failure_handling "req1" ⟨[], .error "boom".toList⟩
    "boom".toList (by decide) rfl
  ⟨h.1, h.2.1, h.2.2.2.2⟩

/-- C9: stdout carries exactly the output path (which is absolute), stdout
depends only on the request identifier (identical across any two
environments), and the exit code is 0. -/
theorem C9_stdout_contract (reqId : String) (env env2 : MainEnv) :
    (main_run reqId env).stdoutLines = [outPath reqId]
      ∧ (main_run reqId env).stdoutLines = (main_run reqId env2).stdoutLines
      ∧ (main_run reqId env).exitCode = 0
      ∧ (outPath reqId).toList.head? = some '/' := by
  refine ⟨(main_run_stdout_exit reqId env).1, ?_,
    (main_run_stdout_exit reqId env).2, ?_⟩
  · rw [(main_run_stdout_exit reqId env).1, (main_run_stdout_exit reqId env2).1]
  · rfl

/-- C10: when OCR fails, the emitted record has both `raw_text` and
`basics.full_name` equal to the sentinel: the sentinel is the only
non-blank line, lands in the basics buffer, and the first-line rule
promotes it to the candidate full name. -/
theorem C10_sentinel_record (reqId : String) (env : MainEnv) (e : Str)
    (hlen : (pyStrip env.pdfText).length < 50)
    (herr : env.ocrResult = .error e) :
    (main_run reqId env).rawText = FAILED_EXTRACTION
      ∧ jsonLookup (main_run reqId env).parsedJson "raw_text"
          = some (Json.str FAILED_EXTRACTION)
      ∧ jsonLookup (main_run reqId env).parsedJson "basics"
          = some (Json.obj
              [("full_name", Json.str FAILED_EXTRACTION),
               ("email", Json.str []), ("phone", Json.str []),
               ("linkedin", Json.str [])])
      ∧ (naive_structure_parse FAILED_EXTRACTION).basics.full_name
          = FAILED_EXTRACTION := by
  rw [main_run_ocr_err reqId env e hlen herr]
  exact ⟨rfl, rfl, rfl, rfl⟩

/-- C10 witness: a concrete environment forcing the failing OCR branch. -/
theorem C10_sentinel_record_witness :
    (main_run "req2" ⟨"x".toList, .error []⟩).rawText = FAILED_EXTRACTION
      ∧ (naive_structure_parse FAILED_EXTRACTION).basics.full_name
          = FAILED_EXTRACTION :=
  have h := C10_sentinel_record "req2" ⟨"x".toList, .error []⟩ [] (by decide) rfl
  ⟨h.1, h.2.2.2⟩

end ParsePdf
